import Mathlib

/-! Shallow embedding of the SPL token balance checker
(`src/routes/+page.svelte`, with a near-identical variant in
`src/unnamed/part_002`).

Modelling conventions:
* JavaScript numbers (balances, supplies, percentages, prices) are modelled
  as rationals `ℚ`; the spec's arithmetic claims are about the exact formulas
  of the code, not float rounding.
* The external world (the Solana RPC connection, the two Jupiter HTTP
  endpoints, and the `PublicKey` constructor of `@solana/web3.js`) is an
  explicit environment `Env` of oracles.  A fallible call is an
  `Except String` value: `Except.error e` models a rejected promise / thrown
  exception whose message is `e`.
* Component-level mutable state (`walletAddresses`, `error`, `loading`,
  `duplicatesRemoved`, `individualBalances`, `tokenResults`, ...) is an
  explicit `AppState` record; `checkBalances` maps a state to a new state.
* Every function that can reach the network also returns the list of network
  calls it issued (`List NetCall`), so that "fails before any network call"
  is the statement that this list is empty.
* JavaScript string library functions used by the source
  (`String.prototype.trim`, `String.prototype.split('\n')`,
  `Array.prototype.join('\n')`, `[...new Set(xs)]`) are modelled by the
  executable Lean functions `jsTrim`, `splitLines`, `joinNl`, `jsSetDedup`
  below; `[...new Set(xs)]` keeps the first occurrence of each element in
  order, which is exactly what `jsSetDedup` computes.
-/

namespace SplChecker

/-- The `TokenBalance` interface of the source: one record per wallet. -/
structure TokenBalance where
  address : String
  balance : ℚ
  percentage : ℚ
  error : Option String := none
deriving DecidableEq

/-- The `TokenInfo` interface of the source: optional enrichment data. -/
structure TokenInfo where
  symbol : String
  name : String
  decimals : ℚ
  usdPrice : ℚ
  solPrice : ℚ
deriving DecidableEq

/-- The `TokenResults` interface of the source: one report per token. -/
structure TokenResults where
  address : String
  info : Option TokenInfo
  totalSupply : ℚ
  balances : List TokenBalance
  totalBalance : ℚ
  percentageOfSupply : ℚ
deriving DecidableEq

/-- A `fetch` response: `ok` is `response.ok`; `json` is the result of
`response.json()`, which may itself throw on a malformed payload. -/
structure FetchResult (α : Type) where
  ok : Bool
  json : Except String α

/-- Payload of `https://tokens.jup.ag/token/{mint}`.  `none` models an
absent/undefined field (the source applies `|| 'Unknown'` and `|| 0`). -/
structure TokenMeta where
  symbol : Option String
  name : Option String
  decimals : Option ℚ
deriving DecidableEq

/-- One entry of the Jupiter price payload (`data[mint]` may be absent,
and its `price` field may be absent). -/
structure PriceEntry where
  price : Option ℚ
deriving DecidableEq

/-- Payload of `https://api.jup.ag/price/v2?ids=...`: a map from mint
address to an optional price entry. -/
structure PriceData where
  data : String → Option PriceEntry

/-- A descriptor of one outbound network call. -/
inductive NetCall where
  | supply (mint : String)
  | accountsByOwner (wallet mint : String)
  | accountBalance (acct : String)
  | metaFetch (mint : String)
  | priceCall (mint : String)
deriving DecidableEq

/-- The external world: `validKey a` is whether `new PublicKey(a)` succeeds,
`keyErrMsg a` the message it throws otherwise; the three RPC oracles model
`connection.getTokenSupply`, `connection.getTokenAccountsByOwner`
(returning the list of token-account pubkeys) and
`connection.getTokenAccountBalance` (already converted by `Number(...)` to a
numeric `uiAmount`); the two fetch oracles model the Jupiter endpoints. -/
structure Env where
  validKey : String → Bool
  keyErrMsg : String → String
  getTokenSupplyRPC : String → Except String ℚ
  getTokenAccountsByOwnerRPC : String → String → Except String (List String)
  getTokenAccountBalanceRPC : String → Except String ℚ
  tokenMetaFetch : String → Except String (FetchResult TokenMeta)
  priceFetch : String → Except String (FetchResult PriceData)

/-- `isValidPublicKey` of the source: `new PublicKey(address)` in a
try/catch. -/
def isValidPublicKey (env : Env) (address : String) : Bool :=
  env.validKey address

/-- Model of JavaScript `String.prototype.trim`. -/
def jsTrim (s : String) : String :=
  ⟨(((s.data.dropWhile Char.isWhitespace).reverse.dropWhile
      Char.isWhitespace).reverse)⟩

/-- Split a character list at every newline (model of `split('\n')`,
which keeps empty segments). -/
def splitCharsOnNl : List Char → List (List Char)
  | [] => [[]]
  | c :: cs =>
    match splitCharsOnNl cs with
    | [] => [[c]]
    | l :: ls => if c = '\n' then [] :: l :: ls else (c :: l) :: ls

/-- Model of JavaScript `s.split('\n')`. -/
def splitLines (s : String) : List String :=
  (splitCharsOnNl s.data).map fun cs => ⟨cs⟩

/-- Model of `xs.join('\n')`. -/
def joinNl : List String → String
  | [] => ""
  | [a] => a
  | a :: b :: rest => a ++ "\n" ++ joinNl (b :: rest)

/-- The splitting/cleaning applied by `checkBalances` to both textareas:
`s.split('\n').map(a => a.trim()).filter(a => a)`. -/
def splitClean (s : String) : List String :=
  ((splitLines s).map jsTrim).filter fun a => a != ""

/-- Walk the list keeping every element not seen before (`seen` is the set
built so far). -/
def jsSetDedupAux (seen : List String) : List String → List String
  | [] => []
  | a :: as =>
    if a ∈ seen then jsSetDedupAux seen as
    else a :: jsSetDedupAux (a :: seen) as

/-- Model of `[...new Set(addresses)]`: keep the first occurrence of each
element, in order. -/
def jsSetDedup (l : List String) : List String :=
  jsSetDedupAux [] l

/-- `removeDuplicates` of the source.  The source also assigns the length
difference to the component variable `duplicatesRemoved`; here the pair
returns (deduplicated list, duplicates removed). -/
def removeDuplicates (addresses : List String) : List String × Nat :=
  let uniqueAddresses := jsSetDedup addresses
  (uniqueAddresses, addresses.length - uniqueAddresses.length)

/-- The wrapped SOL mint constant of the source. -/
def SOL_MINT : String := "So11111111111111111111111111111111111111112"

/-- JavaScript `x || d` for a possibly-absent string (absent and the falsy
empty string both fall back to the default). -/
def jsOrStr (x : Option String) (d : String) : String :=
  match x with
  | none => d
  | some s => if s = "" then d else s

/-- `getTokenInfo` of the source: fetch metadata and prices in parallel;
any rejected fetch, non-ok response or json failure yields `none`
(the surrounding try/catch).  Both fetches are always issued. -/
def getTokenInfo (env : Env) (mintAddress : String) :
    Option TokenInfo × List NetCall :=
  let calls := [NetCall.metaFetch mintAddress, NetCall.priceCall mintAddress]
  match env.tokenMetaFetch mintAddress, env.priceFetch mintAddress with
  | Except.ok tokenResponse, Except.ok priceResponse =>
    if tokenResponse.ok && priceResponse.ok then
      match tokenResponse.json, priceResponse.json with
      | Except.ok tokenData, Except.ok priceData =>
        let tokenPrice := ((priceData.data mintAddress).bind
          PriceEntry.price).getD 0
        let solPrice := ((priceData.data SOL_MINT).bind
          PriceEntry.price).getD 0
        (some { symbol := jsOrStr tokenData.symbol "Unknown"
                name := jsOrStr tokenData.name "Unknown"
                decimals := tokenData.decimals.getD 0
                usdPrice := tokenPrice
                solPrice := if solPrice > 0 then tokenPrice / solPrice else 0 },
         calls)
      | _, _ => (none, calls)
    else (none, calls)
  | _, _ => (none, calls)

/-- `getTotalSupply` of the source: construct the `PublicKey` (which throws
on an invalid mint before any call goes out), then `getTokenSupply`; the
catch block logs and rethrows, so errors pass through. -/
def getTotalSupply (env : Env) (mintAddress : String) :
    Except String ℚ × List NetCall :=
  if env.validKey mintAddress then
    (env.getTokenSupplyRPC mintAddress, [NetCall.supply mintAddress])
  else
    (Except.error (env.keyErrMsg mintAddress), [])

/-- The balance-summing loop of `getTokenBalance`: one
`getTokenAccountBalance` call per token account, sequentially; a thrown
error aborts the loop. -/
def sumBalances (env : Env) : List String → Except String ℚ × List NetCall
  | [] => (Except.ok 0, [])
  | acct :: rest =>
    match env.getTokenAccountBalanceRPC acct with
    | Except.error e => (Except.error e, [NetCall.accountBalance acct])
    | Except.ok b =>
      match sumBalances env rest with
      | (Except.ok s, calls) =>
        (Except.ok (b + s), NetCall.accountBalance acct :: calls)
      | (Except.error e, calls) =>
        (Except.error e, NetCall.accountBalance acct :: calls)

/-- `getTokenBalance` of the source.  Everything runs inside one try/catch:
a throw from either `PublicKey` constructor, from
`getTokenAccountsByOwner`, or from any `getTokenAccountBalance` becomes a
record with zeroed balance and the error message; an empty account list is
the zero-balance success case. -/
def getTokenBalance (env : Env) (walletAddress : String) (totalSupply : ℚ)
    (tokenAddress : String) : TokenBalance × List NetCall :=
  if !env.validKey walletAddress then
    ({ address := walletAddress, balance := 0, percentage := 0
       error := some (env.keyErrMsg walletAddress) }, [])
  else if !env.validKey tokenAddress then
    ({ address := walletAddress, balance := 0, percentage := 0
       error := some (env.keyErrMsg tokenAddress) }, [])
  else
    let ownerCall := NetCall.accountsByOwner walletAddress tokenAddress
    match env.getTokenAccountsByOwnerRPC walletAddress tokenAddress with
    | Except.error e =>
      ({ address := walletAddress, balance := 0, percentage := 0
         error := some e }, [ownerCall])
    | Except.ok tokenAccounts =>
      if tokenAccounts.length = 0 then
        ({ address := walletAddress, balance := 0, percentage := 0 },
         [ownerCall])
      else
        match sumBalances env tokenAccounts with
        | (Except.ok balance, calls) =>
          ({ address := walletAddress, balance := balance
             percentage :=
               if totalSupply > 0 then balance / totalSupply * 100 else 0 },
           ownerCall :: calls)
        | (Except.error e, calls) =>
          ({ address := walletAddress, balance := 0, percentage := 0
             error := some e }, ownerCall :: calls)

/-- The body of `tAddresses.map(async (tokenAddr) => ...)` in
`checkBalances`: info and supply in parallel (a supply failure rejects this
token's promise; the info fetches are fired regardless), then all wallet
balances, then the reduction to `totalBalance` / `percentageOfSupply`. -/
def processToken (env : Env) (addresses : List String) (tokenAddr : String) :
    Except String TokenResults × List NetCall :=
  let infoResult := getTokenInfo env tokenAddr
  match getTotalSupply env tokenAddr with
  | (Except.error e, supplyCalls) =>
    (Except.error e, infoResult.2 ++ supplyCalls)
  | (Except.ok supply, supplyCalls) =>
    let walletResults :=
      addresses.map fun address => getTokenBalance env address supply tokenAddr
    let balances := walletResults.map Prod.fst
    let walletCalls := (walletResults.map Prod.snd).flatten
    let totalBalance :=
      balances.foldl (fun sum result => sum + result.balance) 0
    let percentageOfSupply :=
      if supply > 0 then totalBalance / supply * 100 else 0
    (Except.ok
      { address := tokenAddr, info := infoResult.1, totalSupply := supply
        balances := balances, totalBalance := totalBalance
        percentageOfSupply := percentageOfSupply },
     infoResult.2 ++ supplyCalls ++ walletCalls)

/-- `await Promise.all(tAddresses.map(...))`: all token reports, or the
first rejection. -/
def processTokens (env : Env) (addresses : List String) :
    List String → Except String (List TokenResults) × List NetCall
  | [] => (Except.ok [], [])
  | t :: ts =>
    match processToken env addresses t with
    | (Except.error e, calls) => (Except.error e, calls)
    | (Except.ok r, calls) =>
      match processTokens env addresses ts with
      | (Except.ok rs, calls2) => (Except.ok (r :: rs), calls ++ calls2)
      | (Except.error e, calls2) => (Except.error e, calls ++ calls2)

/-- The component state touched by `checkBalances`. -/
structure AppState where
  walletAddresses : String
  connectionUrl : String
  tokenAddresses : String
  loading : Bool
  error : String
  individualBalances : List TokenBalance
  duplicatesRemoved : Nat
  tokenResults : List TokenResults
deriving DecidableEq

/-- `checkBalances` of the source, as a state transformer that also reports
the network calls issued during the run. -/
def checkBalances (env : Env) (s : AppState) : AppState × List NetCall :=
  if jsTrim s.walletAddresses = "" then
    ({ s with error := "Please enter at least one wallet address" }, [])
  else if jsTrim s.connectionUrl = "" then
    ({ s with error := "Please enter a connection URL" }, [])
  else if jsTrim s.tokenAddresses = "" then
    ({ s with error := "Please enter at least one token address" }, [])
  else
    let s1 := { s with loading := true, error := "", duplicatesRemoved := 0 }
    let tAddresses := splitClean s.tokenAddresses
    match tAddresses.find? fun a => !isValidPublicKey env a with
    | some badTok =>
      ({ s1 with error := "Error: Invalid token address format: " ++ badTok
                 loading := false }, [])
    | none =>
      let split := splitClean s.walletAddresses
      let dedup := removeDuplicates split
      let addresses := dedup.1
      let s2 := { s1 with
        duplicatesRemoved := dedup.2
        walletAddresses :=
          if dedup.2 > 0 then joinNl addresses else s1.walletAddresses }
      match addresses.find? fun a => !isValidPublicKey env a with
      | some badWal =>
        ({ s2 with error := "Error: Invalid wallet address format: " ++ badWal
                   loading := false }, [])
      | none =>
        match processTokens env addresses tAddresses with
        | (Except.error e, calls) =>
          ({ s2 with error := "Error: " ++ e, loading := false }, calls)
        | (Except.ok results, calls) =>
          ({ s2 with
              individualBalances := (results.map TokenResults.balances).flatten
              tokenResults := results
              loading := false }, calls)

/-! Lemmas about deduplication -/

theorem mem_jsSetDedupAux {x : String} :
    ∀ (l : List String) (seen : List String),
      x ∈ jsSetDedupAux seen l ↔ x ∈ l ∧ x ∉ seen := by
  intro l
  induction l with
  | nil => intro seen; simp [jsSetDedupAux]
  | cons a as ih =>
    intro seen
    simp only [jsSetDedupAux]
    by_cases hmem : a ∈ seen
    · simp only [if_pos hmem, ih, List.mem_cons]
      constructor
      · rintro ⟨hx, hns⟩; exact ⟨Or.inr hx, hns⟩
      · rintro ⟨hx | hx, hns⟩
        · exact absurd (hx ▸ hmem) hns
        · exact ⟨hx, hns⟩
    · simp only [if_neg hmem, List.mem_cons, ih]
      constructor
      · rintro (rfl | ⟨hx, hns⟩)
        · exact ⟨Or.inl rfl, hmem⟩
        · exact ⟨Or.inr hx, fun hc => hns (Or.inr hc)⟩
      · rintro ⟨rfl | hx, hns⟩
        · exact Or.inl rfl
        · by_cases hxa : x = a
          · exact Or.inl hxa
          · exact Or.inr ⟨hx, by simp [hxa, hns]⟩

theorem nodup_jsSetDedupAux :
    ∀ (l : List String) (seen : List String), (jsSetDedupAux seen l).Nodup := by
  intro l
  induction l with
  | nil => intro seen; simp [jsSetDedupAux]
  | cons a as ih =>
    intro seen
    simp only [jsSetDedupAux]
    by_cases hmem : a ∈ seen
    · simpa [if_pos hmem] using ih seen
    · rw [if_neg hmem]
      refine List.nodup_cons.2 ⟨fun hc => ?_, ih (a :: seen)⟩
      exact ((mem_jsSetDedupAux as (a :: seen)).1 hc).2 (List.mem_cons_self a seen)

theorem jsSetDedupAux_sublist :
    ∀ (l : List String) (seen : List String), (jsSetDedupAux seen l).Sublist l := by
  intro l
  induction l with
  | nil => intro seen; simp [jsSetDedupAux]
  | cons a as ih =>
    intro seen
    simp only [jsSetDedupAux]
    by_cases hmem : a ∈ seen
    · exact (if_pos hmem) ▸ (ih seen).cons a
    · exact (if_neg hmem) ▸ (ih (a :: seen)).cons₂ a

theorem jsSetDedupAux_eq_self :
    ∀ (l : List String) (seen : List String), l.Nodup →
      (∀ x ∈ l, x ∉ seen) → jsSetDedupAux seen l = l := by
  intro l
  induction l with
  | nil => intro seen _ _; rfl
  | cons a as ih =>
    intro seen hnd hdisj
    have hmem : a ∉ seen := hdisj a (List.mem_cons_self a as)
    simp only [jsSetDedupAux, if_neg hmem]
    refine congrArg (a :: ·) (ih (a :: seen) (List.nodup_cons.1 hnd).2 ?_)
    intro x hx
    simp only [List.mem_cons, not_or]
    exact ⟨fun hc => (List.nodup_cons.1 hnd).1 (hc ▸ hx),
           hdisj x (List.mem_cons_of_mem _ hx)⟩

theorem jsSetDedup_nodup (l : List String) : (jsSetDedup l).Nodup :=
  nodup_jsSetDedupAux l []

theorem jsSetDedup_sublist (l : List String) : (jsSetDedup l).Sublist l :=
  jsSetDedupAux_sublist l []

theorem mem_jsSetDedup {x : String} {l : List String} :
    x ∈ jsSetDedup l ↔ x ∈ l := by
  simp [jsSetDedup, mem_jsSetDedupAux]

theorem jsSetDedup_eq_self {l : List String} (h : l.Nodup) :
    jsSetDedup l = l :=
  jsSetDedupAux_eq_self l [] h (by simp)

/-- C8: deduplication is idempotent: re-deduplicating a deduplicated list
returns the same list and reports zero duplicates removed. -/
theorem removeDuplicates_idempotent (l : List String) :
    removeDuplicates ((removeDuplicates l).1) = ((removeDuplicates l).1, 0) := by
  simp only [removeDuplicates]
  rw [jsSetDedup_eq_self (jsSetDedup_nodup l)]
  simp

/-! Lemmas about the aggregation pipeline -/

theorem foldl_add_balance :
    ∀ (l : List TokenBalance) (c : ℚ),
      l.foldl (fun sum result => sum + result.balance) c =
        c + (l.map TokenBalance.balance).sum := by
  intro l
  induction l with
  | nil => intro c; simp
  | cons r rs ih =>
    intro c
    simp only [List.foldl_cons, List.map_cons, List.sum_cons, ih, add_assoc]

theorem nonempty_of_append_left {a b : String} (h : a ≠ "") : a ++ b ≠ "" := by
  intro hc
  apply h
  have hdata := congrArg String.data hc
  rw [String.data_append] at hdata
  rcases List.append_eq_nil.1 hdata with ⟨ha, _⟩
  exact String.ext ha

/-- Shape of a successful per-token report: one record per wallet, each a
function of its own wallet only, and the two aggregate fields. -/
theorem processToken_ok_shape {env : Env} {addresses : List String}
    {t : String} {r : TokenResults} {calls : List NetCall}
    (h : processToken env addresses t = (Except.ok r, calls)) :
    ∃ supply supplyCalls,
      getTotalSupply env t = (Except.ok supply, supplyCalls) ∧
      r.address = t ∧
      r.info = (getTokenInfo env t).1 ∧
      r.totalSupply = supply ∧
      r.balances = addresses.map
        (fun address => (getTokenBalance env address supply t).1) ∧
      r.totalBalance = (r.balances.map TokenBalance.balance).sum ∧
      r.percentageOfSupply =
        (if supply > 0 then r.totalBalance / supply * 100 else 0) := by
  unfold processToken at h
  rcases hsup : getTotalSupply env t with ⟨sres, supplyCalls⟩
  rw [hsup] at h
  cases sres with
  | error e => exact absurd (congrArg Prod.fst h) (by simp)
  | ok supply =>
    simp only at h
    have hr := congrArg Prod.fst h
    simp only at hr
    refine ⟨supply, supplyCalls, hsup ▸ rfl, ?_⟩
    cases hr.symm
    refine ⟨rfl, rfl, rfl, by simp [List.map_map], ?_, rfl⟩
    simp only [foldl_add_balance, zero_add, List.map_map]

theorem processTokens_ok_mem {env : Env} {addresses : List String} :
    ∀ {ts : List String} {results : List TokenResults} {calls : List NetCall},
      processTokens env addresses ts = (Except.ok results, calls) →
      ∀ r ∈ results, ∃ t ∈ ts, ∃ cs,
        processToken env addresses t = (Except.ok r, cs) := by
  intro ts
  induction ts with
  | nil =>
    intro results calls h r hr
    simp only [processTokens] at h
    cases h
    simp at hr
  | cons t rest ih =>
    intro results calls h r hr
    simp only [processTokens] at h
    rcases h1 : processToken env addresses t with ⟨r1, cs1⟩
    rw [h1] at h
    cases r1 with
    | error e => exact absurd (congrArg Prod.fst h) (by simp)
    | ok r0 =>
      rcases h2 : processTokens env addresses rest with ⟨r2, cs2⟩
      rw [h2] at h
      cases r2 with
      | error e => exact absurd (congrArg Prod.fst h) (by simp)
      | ok rs =>
        have := congrArg Prod.fst h
        simp only at this
        cases this.symm
        rcases List.mem_cons.1 hr with rfl | hmem
        · exact ⟨t, List.mem_cons_self t rest, cs1, h1⟩
        · rcases ih h2 r hmem with ⟨t2, ht2, cs, hp⟩
          exact ⟨t2, List.mem_cons_of_mem _ ht2, cs, hp⟩

theorem processToken_error_of_supply {env : Env} {addresses : List String}
    {t e : String} {cs : List NetCall}
    (h : getTotalSupply env t = (Except.error e, cs)) :
    ∃ cs2, processToken env addresses t = (Except.error e, cs2) := by
  unfold processToken
  rw [h]
  exact ⟨(getTokenInfo env t).2 ++ cs, rfl⟩

theorem processTokens_error_of_mem {env : Env} {addresses : List String} :
    ∀ {ts : List String} {t : String}, t ∈ ts →
      (∀ r cs, processToken env addresses t ≠ (Except.ok r, cs)) →
      ∃ e cs, processTokens env addresses ts = (Except.error e, cs) := by
  intro ts
  induction ts with
  | nil => intro t ht _; simp at ht
  | cons a rest ih =>
    intro t ht hbad
    simp only [processTokens]
    rcases h1 : processToken env addresses a with ⟨r1, cs1⟩
    cases r1 with
    | error e => exact ⟨e, cs1, rfl⟩
    | ok r0 =>
      have hta : t ≠ a := by
        rintro rfl
        exact hbad r0 cs1 h1
      rcases List.mem_cons.1 ht with rfl | hmem
      · exact absurd rfl hta
      · rcases ih hmem hbad with ⟨e, cs, h2⟩
        rw [h2]
        exact ⟨e, cs1 ++ cs, rfl⟩

/-! Claim C9 -/

/-- C9: on any failed run of `checkBalances` (validation failure or fatal
fetch error, i.e. the run ends with a nonempty `error`), `tokenResults` and
`individualBalances` keep exactly their previous values; they are replaced
only when every token's report completed successfully; and a run that
starts with `loading = false` ends with `loading = false` on every path. -/
theorem checkBalances_failed_run_frame
    (env : Env) (s res : AppState) (log : List NetCall)
    (hload : s.loading = false)
    (h : checkBalances env s = (res, log)) :
    res.loading = false ∧
    (res.error ≠ "" →
      res.tokenResults = s.tokenResults ∧
      res.individualBalances = s.individualBalances) ∧
    ((res.tokenResults ≠ s.tokenResults ∨
      res.individualBalances ≠ s.individualBalances) →
      ∃ results calls,
        processTokens env (jsSetDedup (splitClean s.walletAddresses))
          (splitClean s.tokenAddresses) = (Except.ok results, calls) ∧
        res.error = "" ∧
        res.tokenResults = results ∧
        res.individualBalances =
          (results.map TokenResults.balances).flatten) := by
  simp only [checkBalances, removeDuplicates] at h
  split at h
  · injection h with h1 h2
    subst h1
    exact ⟨hload, fun _ => ⟨rfl, rfl⟩, fun hc => by simp at hc⟩
  · split at h
    · injection h with h1 h2
      subst h1
      exact ⟨hload, fun _ => ⟨rfl, rfl⟩, fun hc => by simp at hc⟩
    · split at h
      · injection h with h1 h2
        subst h1
        exact ⟨hload, fun _ => ⟨rfl, rfl⟩, fun hc => by simp at hc⟩
      · split at h
        · injection h with h1 h2
          subst h1
          exact ⟨rfl, fun _ => ⟨rfl, rfl⟩, fun hc => by simp at hc⟩
        · split at h
          · injection h with h1 h2
            subst h1
            exact ⟨rfl, fun _ => ⟨rfl, rfl⟩, fun hc => by simp at hc⟩
          · split at h
            · injection h with h1 h2
              subst h1
              exact ⟨rfl, fun _ => ⟨rfl, rfl⟩, fun hc => by simp at hc⟩
            · rename_i results calls hpt
              injection h with h1 h2
              subst h1
              refine ⟨rfl, fun herr => absurd rfl herr, fun _ => ?_⟩
              exact ⟨results, calls, hpt, rfl, rfl, rfl⟩

/-! Claim C1 -/

/-- C1: in every successful run of `checkBalances`, each produced token
report satisfies `totalBalance = sum of the per-wallet balance fields`,
`percentageOfSupply = totalBalance / totalSupply * 100` when
`totalSupply > 0`, and `percentageOfSupply = 0` when `totalSupply = 0`. -/
theorem checkBalances_totalBalance_percentage
    (env : Env) (s res : AppState) (log : List NetCall)
    (h : checkBalances env s = (res, log))
    (hok : res.error = "")
    (r : TokenResults) (hr : r ∈ res.tokenResults) :
    r.totalBalance = (r.balances.map TokenBalance.balance).sum ∧
    (r.totalSupply > 0 →
      r.percentageOfSupply = r.totalBalance / r.totalSupply * 100) ∧
    (r.totalSupply = 0 → r.percentageOfSupply = 0) := by
  simp only [checkBalances, removeDuplicates] at h
  split at h
  · injection h with h1 _; subst h1; simp at hok
  · split at h
    · injection h with h1 _; subst h1; simp at hok
    · split at h
      · injection h with h1 _; subst h1; simp at hok
      · split at h
        · injection h with h1 _
          subst h1
          exact absurd hok (nonempty_of_append_left (by decide))
        · split at h
          · injection h with h1 _
            subst h1
            exact absurd hok (nonempty_of_append_left (by decide))
          · split at h
            · injection h with h1 _
              subst h1
              exact absurd hok (nonempty_of_append_left (by decide))
            · rename_i results calls hpt
              injection h with h1 _
              subst h1
              rcases processTokens_ok_mem hpt r hr with ⟨t, _, cs, hp⟩
              rcases processToken_ok_shape hp with
                ⟨supply, supplyCalls, _, _, _, hts, _, htb, hpct⟩
              refine ⟨htb, ?_, ?_⟩
              · intro hpos
                rw [hpct, if_pos (hts ▸ hpos), hts]
              · intro hzero
                rw [hpct, if_neg]
                rw [← hts, hzero]
                exact lt_irrefl 0

/-! Claim C3 -/

/-- C3: an empty (or whitespace-only) wallet or token field, or a malformed
wallet or token address, makes `checkBalances` fail before any network call
(the call log is empty), leaves `tokenResults`/`individualBalances`
untouched, and — in the malformed-address case — produces an error naming
the exact offending address string. -/
theorem checkBalances_validation_gate
    (env : Env) (s res : AppState) (log : List NetCall)
    (h : checkBalances env s = (res, log)) :
    ((jsTrim s.walletAddresses = "" ∨ jsTrim s.tokenAddresses = "") →
      res.error ≠ "" ∧ log = [] ∧
      res.tokenResults = s.tokenResults ∧
      res.individualBalances = s.individualBalances) ∧
    (∀ badTok,
      jsTrim s.walletAddresses ≠ "" → jsTrim s.connectionUrl ≠ "" →
      jsTrim s.tokenAddresses ≠ "" →
      (splitClean s.tokenAddresses).find?
        (fun a => !isValidPublicKey env a) = some badTok →
      badTok ∈ splitClean s.tokenAddresses ∧
      isValidPublicKey env badTok = false ∧
      res.error = "Error: Invalid token address format: " ++ badTok ∧
      log = [] ∧ res.tokenResults = s.tokenResults ∧
      res.individualBalances = s.individualBalances) ∧
    (∀ badWal,
      jsTrim s.walletAddresses ≠ "" → jsTrim s.connectionUrl ≠ "" →
      jsTrim s.tokenAddresses ≠ "" →
      (splitClean s.tokenAddresses).find?
        (fun a => !isValidPublicKey env a) = none →
      (jsSetDedup (splitClean s.walletAddresses)).find?
        (fun a => !isValidPublicKey env a) = some badWal →
      badWal ∈ splitClean s.walletAddresses ∧
      isValidPublicKey env badWal = false ∧
      res.error = "Error: Invalid wallet address format: " ++ badWal ∧
      log = [] ∧ res.tokenResults = s.tokenResults ∧
      res.individualBalances = s.individualBalances) := by
  simp only [checkBalances, removeDuplicates] at h
  split at h
  · rename_i hwempty
    injection h with h1 h2
    subst h1; subst h2
    refine ⟨fun _ => ⟨by simp, rfl, rfl, rfl⟩, ?_, ?_⟩
    · intro badTok hw _ _ _; exact absurd hwempty hw
    · intro badWal hw _ _ _ _; exact absurd hwempty hw
  · split at h
    · rename_i hcempty
      injection h with h1 h2
      subst h1; subst h2
      refine ⟨fun _ => ⟨by simp, rfl, rfl, rfl⟩, ?_, ?_⟩
      · intro badTok _ hc _ _; exact absurd hcempty hc
      · intro badWal _ hc _ _ _; exact absurd hcempty hc
    · split at h
      · rename_i htempty
        injection h with h1 h2
        subst h1; subst h2
        refine ⟨fun _ => ⟨by simp, rfl, rfl, rfl⟩, ?_, ?_⟩
        · intro badTok _ _ ht _; exact absurd htempty ht
        · intro badWal _ _ ht _ _; exact absurd htempty ht
      · rename_i hwne hcne htne
        split at h
        · rename_i badTok0 hfound
          injection h with h1 h2
          subst h1; subst h2
          refine ⟨fun hc => ?_, fun badTok _ _ _ hfound2 => ?_,
                  fun badWal _ _ _ hnone _ => ?_⟩
          · rcases hc with hc | hc
            · exact absurd hc hwne
            · exact absurd hc htne
          · rw [hfound] at hfound2
            cases hfound2
            refine ⟨List.mem_of_find?_eq_some hfound, ?_, rfl, rfl, rfl, rfl⟩
            have := List.find?_some hfound
            simpa using this
          · rw [hfound] at hnone
            cases hnone
        · rename_i hnofoundTok
          split at h
          · rename_i badWal0 hfound
            injection h with h1 h2
            subst h1; subst h2
            refine ⟨fun hc => ?_, fun badTok _ _ _ hfound2 => ?_,
                    fun badWal _ _ _ _ hfound2 => ?_⟩
            · rcases hc with hc | hc
              · exact absurd hc hwne
              · exact absurd hc htne
            · rw [hnofoundTok] at hfound2
              cases hfound2
            · rw [hfound] at hfound2
              cases hfound2
              refine ⟨mem_jsSetDedup.1 (List.mem_of_find?_eq_some hfound),
                      ?_, rfl, rfl, rfl, rfl⟩
              have := List.find?_some hfound
              simpa using this
          · rename_i hnofoundWal
            split at h <;>
            · injection h with h1 h2
              subst h1; subst h2
              refine ⟨fun hc => ?_, fun badTok _ _ _ hfound2 => ?_,
                      fun badWal _ _ _ _ hfound2 => ?_⟩
              · rcases hc with hc | hc
                · exact absurd hc hwne
                · exact absurd hc htne
              · rw [hnofoundTok] at hfound2
                cases hfound2
              · rw [hnofoundWal] at hfound2
                cases hfound2

/-! Claim C2 -/

/-- C2 (amended): a total-supply fetch failure for any one token is fatal
for the whole run, not just that token's report: the run ends with a
nonempty error and no token report at all is produced —
`tokenResults`/`individualBalances` keep their previous values, even for
tokens whose own fetches would have succeeded. -/
theorem checkBalances_supply_failure_fatal
    (env : Env) (s res : AppState) (log : List NetCall) (t e : String)
    (h : checkBalances env s = (res, log))
    (hw : jsTrim s.walletAddresses ≠ "") (hc : jsTrim s.connectionUrl ≠ "")
    (ht : jsTrim s.tokenAddresses ≠ "")
    (htok : (splitClean s.tokenAddresses).find?
      (fun a => !isValidPublicKey env a) = none)
    (hwal : (jsSetDedup (splitClean s.walletAddresses)).find?
      (fun a => !isValidPublicKey env a) = none)
    (hmem : t ∈ splitClean s.tokenAddresses)
    (hsup : env.getTokenSupplyRPC t = Except.error e) :
    res.error ≠ "" ∧
    res.tokenResults = s.tokenResults ∧
    res.individualBalances = s.individualBalances := by
  have hvalid : env.validKey t = true := by
    have := List.find?_eq_none.1 htok t hmem
    simpa [isValidPublicKey] using this
  have hgts : getTotalSupply env t = (Except.error e, [NetCall.supply t]) := by
    simp [getTotalSupply, hvalid, hsup]
  have hbad : ∀ (r : TokenResults) (cs : List NetCall),
      processToken env (jsSetDedup (splitClean s.walletAddresses)) t ≠
        (Except.ok r, cs) := by
    intro r cs hcontra
    rcases @processToken_error_of_supply env
      (jsSetDedup (splitClean s.walletAddresses)) t e
      [NetCall.supply t] hgts with ⟨cs2, herr⟩
    rw [hcontra] at herr
    exact absurd (congrArg Prod.fst herr) (by simp)
  rcases processTokens_error_of_mem hmem hbad with ⟨e2, cs3, hfailAll⟩
  simp only [checkBalances, removeDuplicates] at h
  rw [if_neg hw, if_neg hc, if_neg ht] at h
  rw [htok] at h
  simp only at h
  rw [hwal] at h
  simp only at h
  rw [hfailAll] at h
  injection h with h1 _
  subst h1
  exact ⟨nonempty_of_append_left (by decide), rfl, rfl⟩

/-! Claim C10 -/

/-- C10: when the wallet list has duplicates and a (deduplicated) wallet
address then fails validation, the run fails, yet the deduplication side
effects persist: `duplicatesRemoved` holds the nonzero length difference
and the `walletAddresses` field has already been rewritten to the
deduplicated list joined by newlines. -/
theorem checkBalances_dedup_persists_on_failure
    (env : Env) (s res : AppState) (log : List NetCall) (badWal : String)
    (h : checkBalances env s = (res, log))
    (hw : jsTrim s.walletAddresses ≠ "") (hc : jsTrim s.connectionUrl ≠ "")
    (ht : jsTrim s.tokenAddresses ≠ "")
    (htok : (splitClean s.tokenAddresses).find?
      (fun a => !isValidPublicKey env a) = none)
    (hdup : (jsSetDedup (splitClean s.walletAddresses)).length <
      (splitClean s.walletAddresses).length)
    (hbad : (jsSetDedup (splitClean s.walletAddresses)).find?
      (fun a => !isValidPublicKey env a) = some badWal) :
    res.error = "Error: Invalid wallet address format: " ++ badWal ∧
    res.duplicatesRemoved =
      (splitClean s.walletAddresses).length -
        (jsSetDedup (splitClean s.walletAddresses)).length ∧
    0 < res.duplicatesRemoved ∧
    res.walletAddresses = joinNl (jsSetDedup (splitClean s.walletAddresses)) := by
  have hpos : 0 < (splitClean s.walletAddresses).length -
      (jsSetDedup (splitClean s.walletAddresses)).length :=
    Nat.sub_pos_of_lt hdup
  simp only [checkBalances, removeDuplicates] at h
  rw [if_neg hw, if_neg hc, if_neg ht] at h
  rw [htok] at h
  simp only at h
  rw [hbad] at h
  simp only [if_pos hpos] at h
  injection h with h1 _
  subst h1
  exact ⟨rfl, rfl, hpos, rfl⟩

/-! Claims C4 and C5 -/

theorem sumBalances_fst_ok {env : Env} {f : String → ℚ} :
    ∀ {accts : List String},
      (∀ a ∈ accts, env.getTokenAccountBalanceRPC a = Except.ok (f a)) →
      (sumBalances env accts).1 = Except.ok ((accts.map f).sum) := by
  intro accts
  induction accts with
  | nil => intro _; simp [sumBalances]
  | cons a rest ih =>
    intro hbal
    simp only [sumBalances, hbal a (List.mem_cons_self a rest)]
    rcases hrest : sumBalances env rest with ⟨r2, cs2⟩
    have h2 := ih fun x hx => hbal x (List.mem_cons_of_mem _ hx)
    rw [hrest] at h2
    simp only at h2
    subst h2
    simp

theorem sumBalances_eq {env env2 : Env}
    (hb : env2.getTokenAccountBalanceRPC = env.getTokenAccountBalanceRPC) :
    sumBalances env2 = sumBalances env := by
  funext accts
  induction accts with
  | nil => rfl
  | cons a rest ih => simp only [sumBalances, hb, ih]

/-- C5: for a valid wallet and token, `getTokenBalance` returns the sum of
the balances of all of the wallet's token accounts for that mint, with
`percentage = balance / totalSupply * 100` when `totalSupply > 0` and `0`
otherwise, and no error; zero matching accounts give balance 0 and
percentage 0 with no error. -/
theorem getTokenBalance_sums_accounts
    (env : Env) (w t : String) (supply : ℚ) (accts : List String)
    (f : String → ℚ)
    (hw : env.validKey w = true) (ht : env.validKey t = true)
    (hacc : env.getTokenAccountsByOwnerRPC w t = Except.ok accts)
    (hbal : ∀ a ∈ accts, env.getTokenAccountBalanceRPC a = Except.ok (f a)) :
    (getTokenBalance env w supply t).1 =
      { address := w, balance := (accts.map f).sum
        percentage :=
          if supply > 0 then (accts.map f).sum / supply * 100 else 0
        error := none } ∧
    (accts = [] → (getTokenBalance env w supply t).1 =
      { address := w, balance := 0, percentage := 0, error := none }) := by
  have hmain : (getTokenBalance env w supply t).1 =
      { address := w, balance := (accts.map f).sum
        percentage :=
          if supply > 0 then (accts.map f).sum / supply * 100 else 0
        error := none } := by
    unfold getTokenBalance
    rw [hw, ht]
    simp only [Bool.not_true, Bool.false_eq_true, if_false]
    rw [hacc]
    cases accts with
    | nil => simp
    | cons a rest =>
      simp only [List.length_cons, Nat.succ_ne_zero, if_false]
      rcases hsum : sumBalances env (a :: rest) with ⟨sres, cs⟩
      have h2 := sumBalances_fst_ok hbal
      rw [hsum] at h2
      simp only at h2
      subst h2
      rfl
  refine ⟨hmain, fun hempty => ?_⟩
  subst hempty
  simpa using hmain

theorem sumBalances_congr_on {env env2 : Env} :
    ∀ {accts : List String},
      (∀ acct ∈ accts, env2.getTokenAccountBalanceRPC acct =
        env.getTokenAccountBalanceRPC acct) →
      sumBalances env2 accts = sumBalances env accts := by
  intro accts
  induction accts with
  | nil => intro _; rfl
  | cons a rest ih =>
    intro hag
    simp only [sumBalances, hag a (List.mem_cons_self a rest),
      ih fun x hx => hag x (List.mem_cons_of_mem _ hx)]

/-- C4: a wallet whose balance fetch fails with an RPC error — either the
`getTokenAccountsByOwner` lookup or any of the per-account
`getTokenAccountBalance` calls is rejected — gets a record carrying that
error string and a zeroed balance; the failing wallet's oracle entries do
not affect any other wallet's record; and when the supply is known the
token report is still produced with one record per wallet, each a function
of its own wallet only. -/
theorem getTokenBalance_failure_isolated
    (env : Env) (supply : ℚ) (t w e : String)
    (hw : env.validKey w = true) (ht : env.validKey t = true)
    (hf : env.getTokenAccountsByOwnerRPC w t = Except.error e ∨
      (∃ accts, env.getTokenAccountsByOwnerRPC w t = Except.ok accts ∧
        accts ≠ [] ∧ (sumBalances env accts).1 = Except.error e)) :
    (getTokenBalance env w supply t).1 =
      { address := w, balance := 0, percentage := 0, error := some e } ∧
    (∀ (env2 : Env) (a : String), a ≠ w →
      env2.validKey = env.validKey →
      env2.keyErrMsg = env.keyErrMsg →
      env2.getTokenAccountsByOwnerRPC a t =
        env.getTokenAccountsByOwnerRPC a t →
      (∀ accts, env.getTokenAccountsByOwnerRPC a t = Except.ok accts →
        ∀ acct ∈ accts, env2.getTokenAccountBalanceRPC acct =
          env.getTokenAccountBalanceRPC acct) →
      getTokenBalance env2 a supply t = getTokenBalance env a supply t) ∧
    (∀ addresses : List String,
      env.getTokenSupplyRPC t = Except.ok supply →
      ∃ r calls, processToken env addresses t = (Except.ok r, calls) ∧
        r.balances = addresses.map
          (fun a => (getTokenBalance env a supply t).1)) := by
  refine ⟨?_, ?_, ?_⟩
  · rcases hf with hf | ⟨accts, hacc, hne, hsum⟩
    · unfold getTokenBalance
      rw [hw, ht]
      simp only [Bool.not_true, Bool.false_eq_true, if_false]
      rw [hf]
    · unfold getTokenBalance
      rw [hw, ht]
      simp only [Bool.not_true, Bool.false_eq_true, if_false]
      rw [hacc]
      cases accts with
      | nil => exact absurd rfl hne
      | cons a0 rest =>
        simp only [List.length_cons, Nat.succ_ne_zero, if_false]
        rcases h2 : sumBalances env (a0 :: rest) with ⟨sres, cs⟩
        rw [h2] at hsum
        simp only at hsum
        subst hsum
        rfl
  · intro env2 a haw hv hk hacc hbal
    unfold getTokenBalance
    rw [hv, hk, hacc]
    split
    · rfl
    · split
      · rfl
      · split
        · rfl
        · rename_i accts2 h2
          rw [sumBalances_congr_on (hbal accts2 h2)]
  · intro addresses hsupply
    have hgts : getTotalSupply env t = (Except.ok supply, [NetCall.supply t]) := by
      simp [getTotalSupply, ht, hsupply]
    unfold processToken
    rw [hgts]
    refine ⟨_, _, rfl, ?_⟩
    simp [List.map_map]

/-! Claim C6 -/

/-- All failure modes of the optional enrichment step: a rejected metadata
or price fetch, a non-ok HTTP response on either, or a malformed json
payload on either. -/
def enrichmentFails (env : Env) (t : String) : Prop :=
  (∃ e, env.tokenMetaFetch t = Except.error e) ∨
  (∃ e, env.priceFetch t = Except.error e) ∨
  (∃ fr, env.tokenMetaFetch t = Except.ok fr ∧ fr.ok = false) ∨
  (∃ fr, env.priceFetch t = Except.ok fr ∧ fr.ok = false) ∨
  (∃ fr fr2, env.tokenMetaFetch t = Except.ok fr ∧
    env.priceFetch t = Except.ok fr2 ∧
    ((∃ e, fr.json = Except.error e) ∨ (∃ e, fr2.json = Except.error e)))

theorem getTokenInfo_snd (env : Env) (t : String) :
    (getTokenInfo env t).2 = [NetCall.metaFetch t, NetCall.priceCall t] := by
  unfold getTokenInfo
  cases h1 : env.tokenMetaFetch t with
  | error e1 => rfl
  | ok fr1 =>
    cases h2 : env.priceFetch t with
    | error e2 => rfl
    | ok fr2 =>
      simp only
      split
      · cases h3 : fr1.json with
        | error e3 => rfl
        | ok td =>
          cases h4 : fr2.json with
          | error e4 => rfl
          | ok pd => rfl
      · rfl

theorem getTokenInfo_fst_none {env : Env} {t : String}
    (hfail : enrichmentFails env t) : (getTokenInfo env t).1 = none := by
  unfold getTokenInfo
  rcases hfail with ⟨e, he⟩ | ⟨e, he⟩ | ⟨fr, hfr, hok⟩ | ⟨fr, hfr, hok⟩ |
    ⟨fr, fr2, hfr, hfr2, hjson⟩
  · rw [he]
  · cases h1 : env.tokenMetaFetch t with
    | error e1 => rfl
    | ok fr1 => rw [he]
  · rw [hfr]
    cases h2 : env.priceFetch t with
    | error e2 => rfl
    | ok fr2 => simp [hok]
  · cases h1 : env.tokenMetaFetch t with
    | error e1 => rfl
    | ok fr1 =>
      rw [hfr]
      simp [hok]
  · rw [hfr, hfr2]
    simp only
    split
    · rcases hjson with ⟨e, hj⟩ | ⟨e, hj⟩
      · rw [hj]
      · cases h3 : fr.json with
        | error e3 => rfl
        | ok td => rw [hj]
    · rfl

theorem getTokenBalance_congr {env env2 : Env}
    (hv : env2.validKey = env.validKey)
    (hk : env2.keyErrMsg = env.keyErrMsg)
    (ha : env2.getTokenAccountsByOwnerRPC = env.getTokenAccountsByOwnerRPC)
    (hb : env2.getTokenAccountBalanceRPC = env.getTokenAccountBalanceRPC) :
    getTokenBalance env2 = getTokenBalance env := by
  funext w supply t
  unfold getTokenBalance
  rw [hv, hk, ha, sumBalances_eq hb]

theorem getTotalSupply_congr {env env2 : Env}
    (hv : env2.validKey = env.validKey)
    (hk : env2.keyErrMsg = env.keyErrMsg)
    (hs : env2.getTokenSupplyRPC = env.getTokenSupplyRPC) :
    getTotalSupply env2 = getTotalSupply env := by
  funext t
  unfold getTotalSupply
  rw [hv, hk, hs]

/-- Only the enrichment oracles feed a report's `info` field: two
environments that agree on everything except the two fetch oracles produce
the same per-token outcome (same rejection, or the same report and call
log) up to the `info` field. -/
theorem processToken_info_frame (env env2 : Env)
    (hv : env2.validKey = env.validKey) (hk : env2.keyErrMsg = env.keyErrMsg)
    (hs : env2.getTokenSupplyRPC = env.getTokenSupplyRPC)
    (ha : env2.getTokenAccountsByOwnerRPC = env.getTokenAccountsByOwnerRPC)
    (hb : env2.getTokenAccountBalanceRPC = env.getTokenAccountBalanceRPC)
    (addresses : List String) (t : String) :
    processToken env2 addresses t =
      (((processToken env addresses t).1).map
        (fun r => { r with info := (getTokenInfo env2 t).1 }),
       (processToken env addresses t).2) := by
  have hgtb := getTokenBalance_congr hv hk ha hb
  have hgts := getTotalSupply_congr hv hk hs
  simp only [processToken, hgtb, hgts, getTokenInfo_snd]
  rcases hsup : getTotalSupply env t with ⟨sres, scalls⟩
  cases sres <;> rfl

/-- C6: any failure of the enrichment/price step (rejected fetch, non-ok
response, malformed payload) yields null enrichment info, and does not
prevent that token's supply fetch, balance computation and report: the
token's outcome is exactly what it would be under an environment with any
other enrichment behavior, with `info` replaced by `none`. -/
theorem enrichment_failure_isolated (env : Env) (t : String)
    (hfail : enrichmentFails env t) :
    (getTokenInfo env t).1 = none ∧
    (∀ (env2 : Env) (addresses : List String),
      env2.validKey = env.validKey → env2.keyErrMsg = env.keyErrMsg →
      env2.getTokenSupplyRPC = env.getTokenSupplyRPC →
      env2.getTokenAccountsByOwnerRPC = env.getTokenAccountsByOwnerRPC →
      env2.getTokenAccountBalanceRPC = env.getTokenAccountBalanceRPC →
      processToken env addresses t =
        (((processToken env2 addresses t).1).map
          (fun r => { r with info := none }),
         (processToken env2 addresses t).2)) := by
  have hnone := getTokenInfo_fst_none hfail
  refine ⟨hnone, fun env2 addresses hv hk hs ha hb => ?_⟩
  have hframe := processToken_info_frame env2 env
    (by rw [hv]) (by rw [hk]) (by rw [hs]) (by rw [ha]) (by rw [hb])
    addresses t
  rw [hframe, hnone]

/-! Claim C7 -/

theorem sumBalances_calls {env : Env} :
    ∀ {accts : List String} {c : NetCall}, c ∈ (sumBalances env accts).2 →
      ∃ acct, c = NetCall.accountBalance acct := by
  intro accts
  induction accts with
  | nil => intro c hc; simp [sumBalances] at hc
  | cons a rest ih =>
    intro c hc
    simp only [sumBalances] at hc
    rcases h1 : env.getTokenAccountBalanceRPC a with e | b <;> rw [h1] at hc
    · simp only [List.mem_singleton] at hc
      exact ⟨a, hc⟩
    · rcases h2 : sumBalances env rest with ⟨r2, cs2⟩
      rw [h2] at hc
      have hmemtail : c = NetCall.accountBalance a ∨ c ∈ cs2 := by
        cases r2 <;> simpa using hc
      rcases hmemtail with rfl | htail
      · exact ⟨a, rfl⟩
      · exact ih (show c ∈ (sumBalances env rest).2 by rw [h2]; exact htail)

theorem getTokenBalance_calls {env : Env} {a : String} {supply : ℚ}
    {t w m : String}
    (h : NetCall.accountsByOwner w m ∈ (getTokenBalance env a supply t).2) :
    w = a := by
  unfold getTokenBalance at h
  split at h
  · simp at h
  · split at h
    · simp at h
    · split at h
      · rename_i e heq
        simp only [List.mem_singleton] at h
        injection h with h2 h3
      · rename_i accts heq
        split at h
        · simp only [List.mem_singleton] at h
          injection h with h2 h3
        · split at h
          · rename_i balance calls hsum
            rcases List.mem_cons.1 h with heq2 | htail
            · injection heq2 with h2 h3
            · rcases sumBalances_calls (show _ ∈ (sumBalances env accts).2 by
                rw [hsum]; exact htail) with ⟨acct, hacct⟩
              exact absurd hacct (by simp)
          · rename_i e calls hsum
            rcases List.mem_cons.1 h with heq2 | htail
            · injection heq2 with h2 h3
            · rcases sumBalances_calls (show _ ∈ (sumBalances env accts).2 by
                rw [hsum]; exact htail) with ⟨acct, hacct⟩
              exact absurd hacct (by simp)

theorem getTotalSupply_calls {env : Env} {t : String} {c : NetCall}
    (h : c ∈ (getTotalSupply env t).2) : c = NetCall.supply t := by
  unfold getTotalSupply at h
  split at h
  · simpa using h
  · simp at h

theorem processToken_calls {env : Env} {addresses : List String}
    {t w m : String}
    (h : NetCall.accountsByOwner w m ∈ (processToken env addresses t).2) :
    w ∈ addresses := by
  simp only [processToken] at h
  rcases hsup : getTotalSupply env t with ⟨sres, scalls⟩
  rw [hsup] at h
  have hsc : ∀ c ∈ scalls, c = NetCall.supply t := by
    intro c hc
    exact getTotalSupply_calls (show c ∈ (getTotalSupply env t).2 by
      rw [hsup]; exact hc)
  cases sres with
  | error e =>
    simp only [getTokenInfo_snd, List.mem_append, List.mem_cons,
      List.mem_singleton, List.not_mem_nil, or_false] at h
    rcases h with (h | h) | h
    · cases h
    · cases h
    · cases hsc _ h
  | ok supply =>
    simp only [getTokenInfo_snd, List.mem_append, List.mem_cons,
      List.mem_singleton, List.not_mem_nil, or_false] at h
    rcases h with ((h | h) | h) | h
    · cases h
    · cases h
    · cases hsc _ h
    · rw [List.mem_flatten] at h
      rcases h with ⟨lcalls, hl, hc⟩
      simp only [List.map_map, List.mem_map] at hl
      rcases hl with ⟨a, ha, rfl⟩
      have hwa : w = a := getTokenBalance_calls hc
      exact hwa ▸ ha

theorem processTokens_calls {env : Env} {addresses : List String} :
    ∀ {ts : List String} {w m : String},
      NetCall.accountsByOwner w m ∈ (processTokens env addresses ts).2 →
      w ∈ addresses := by
  intro ts
  induction ts with
  | nil => intro w m h; simp [processTokens] at h
  | cons t rest ih =>
    intro w m h
    simp only [processTokens] at h
    rcases h1 : processToken env addresses t with ⟨r1, cs1⟩
    rw [h1] at h
    cases r1 with
    | error e =>
      simp only at h
      exact processToken_calls (show _ ∈ (processToken env addresses t).2 by
        rw [h1]; exact h)
    | ok r0 =>
      rcases h2 : processTokens env addresses rest with ⟨r2, cs2⟩
      rw [h2] at h
      have hmem : NetCall.accountsByOwner w m ∈ cs1 ∨
          NetCall.accountsByOwner w m ∈ cs2 := by
        cases r2 <;> simpa using h
      rcases hmem with hmem | hmem
      · exact processToken_calls (show _ ∈ (processToken env addresses t).2 by
          rw [h1]; exact hmem)
      · exact ih (show _ ∈ (processTokens env addresses rest).2 by
          rw [h2]; exact hmem)

/-- C7: `removeDuplicates` returns its input with duplicate addresses
removed (a duplicate-free sublist with the same members, in order) and
reports the number removed as the difference in length; within
`checkBalances` it runs before any fetching: whenever any network call was
issued, `duplicatesRemoved` has already been set from the wallet list, and
every account lookup uses an address from the deduplicated list. -/
theorem removeDuplicates_spec_and_before_fetch
    (l : List String) (env : Env) (s res : AppState) (log : List NetCall)
    (h : checkBalances env s = (res, log)) :
    ((removeDuplicates l).1.Nodup ∧
     (removeDuplicates l).1.Sublist l ∧
     (∀ a, a ∈ (removeDuplicates l).1 ↔ a ∈ l) ∧
     (removeDuplicates l).2 = l.length - (removeDuplicates l).1.length) ∧
    (log ≠ [] →
      res.duplicatesRemoved =
        (splitClean s.walletAddresses).length -
          (jsSetDedup (splitClean s.walletAddresses)).length ∧
      ∀ w m, NetCall.accountsByOwner w m ∈ log →
        w ∈ jsSetDedup (splitClean s.walletAddresses)) := by
  refine ⟨⟨jsSetDedup_nodup l, jsSetDedup_sublist l,
    fun a => mem_jsSetDedup, rfl⟩, ?_⟩
  simp only [checkBalances, removeDuplicates] at h
  split at h
  · injection h with _ h2; subst h2; intro hlog; exact absurd rfl hlog
  · split at h
    · injection h with _ h2; subst h2; intro hlog; exact absurd rfl hlog
    · split at h
      · injection h with _ h2; subst h2; intro hlog; exact absurd rfl hlog
      · split at h
        · injection h with _ h2; subst h2; intro hlog; exact absurd rfl hlog
        · split at h
          · injection h with _ h2; subst h2; intro hlog; exact absurd rfl hlog
          · split at h <;>
            · rename_i hpt
              injection h with h1 h2
              subst h1; subst h2
              intro _
              refine ⟨rfl, fun w m hmem => ?_⟩
              have : NetCall.accountsByOwner w m ∈
                  (processTokens env (jsSetDedup (splitClean s.walletAddresses))
                    (splitClean s.tokenAddresses)).2 := by
                rw [hpt]
                exact hmem
              exact processTokens_calls this

/-! Concrete fixtures for the witnesses -/

/-- Error message used by the concrete `PublicKey` model. -/
def pkErr : String → String := fun _ => "Invalid public key input"

def c1Env : Env where
  validKey a := a == "W1" || a == "W2" || a == "T1"
  keyErrMsg := pkErr
  getTokenSupplyRPC _ := Except.ok 1000
  getTokenAccountsByOwnerRPC w _ :=
    if w == "W1" then Except.ok ["A1"] else Except.ok []
  getTokenAccountBalanceRPC _ := Except.ok 100
  tokenMetaFetch _ := Except.error "offline"
  priceFetch _ := Except.error "offline"

def c1State : AppState where
  walletAddresses := "W1\nW2"
  connectionUrl := "https://rpc"
  tokenAddresses := "T1"
  loading := false
  error := ""
  individualBalances := []
  duplicatesRemoved := 0
  tokenResults := []

def c1Report : TokenResults where
  address := "T1"
  info := none
  totalSupply := 1000
  balances := [⟨"W1", 100, 10, none⟩, ⟨"W2", 0, 0, none⟩]
  totalBalance := 100
  percentageOfSupply := 10

/-- C1 witness: the spec example — wallets W1, W2, supply 1000, W1 holds
100, W2 holds 0 — yields totalBalance 100 and percentageOfSupply 10, and
the general invariant instantiates on the produced report. -/
theorem checkBalances_totalBalance_percentage_witness :
    (checkBalances c1Env c1State).1.error = "" ∧
    (checkBalances c1Env c1State).1.tokenResults = [c1Report] ∧
    c1Report.totalBalance = 100 ∧ c1Report.percentageOfSupply = 10 ∧
    c1Report.totalBalance = (c1Report.balances.map TokenBalance.balance).sum ∧
    (c1Report.totalSupply > 0 →
      c1Report.percentageOfSupply =
        c1Report.totalBalance / c1Report.totalSupply * 100) := by
  have herr : (checkBalances c1Env c1State).1.error = "" := by
    norm_num +decide [checkBalances, processTokens, processToken,
      getTotalSupply, getTokenBalance, sumBalances, getTokenInfo, splitClean,
      splitLines, splitCharsOnNl, jsTrim, jsSetDedup, jsSetDedupAux,
      removeDuplicates, joinNl, isValidPublicKey, c1Env, c1State]
  have hrun : (checkBalances c1Env c1State).1.tokenResults = [c1Report] := by
    norm_num +decide [checkBalances, processTokens, processToken,
      getTotalSupply, getTokenBalance, sumBalances, getTokenInfo, splitClean,
      splitLines, splitCharsOnNl, jsTrim, jsSetDedup, jsSetDedupAux,
      removeDuplicates, joinNl, isValidPublicKey, c1Env, c1State, c1Report]
  have hmem : c1Report ∈ (checkBalances c1Env c1State).1.tokenResults := by
    rw [hrun]; exact List.mem_singleton.2 rfl
  have main := checkBalances_totalBalance_percentage c1Env c1State
    (checkBalances c1Env c1State).1 (checkBalances c1Env c1State).2
    rfl herr c1Report hmem
  exact ⟨herr, hrun, rfl, rfl, main.1, main.2.1⟩

def c2Env : Env where
  validKey a := a == "W1" || a == "T1" || a == "T2"
  keyErrMsg := pkErr
  getTokenSupplyRPC m :=
    if m == "T1" then Except.error "supply unavailable" else Except.ok 1000
  getTokenAccountsByOwnerRPC _ _ := Except.ok ["A1"]
  getTokenAccountBalanceRPC _ := Except.ok 100
  tokenMetaFetch _ := Except.error "offline"
  priceFetch _ := Except.error "offline"

def c2State : AppState where
  walletAddresses := "W1"
  connectionUrl := "https://rpc"
  tokenAddresses := "T1\nT2"
  loading := false
  error := ""
  individualBalances := []
  duplicatesRemoved := 0
  tokenResults := []

def c2T2Report : TokenResults where
  address := "T2"
  info := none
  totalSupply := 1000
  balances := [⟨"W1", 100, 10, none⟩]
  totalBalance := 100
  percentageOfSupply := 10

/-- C2 counterexample: token T1's supply fetch fails while token T2 in the
same run would succeed on its own — yet after the run no token report at
all is produced (`tokenResults` stays empty), so the failure is not scoped
to T1's report as the claim states. -/
theorem checkBalances_supply_failure_not_per_token :
    (processToken c2Env ["W1"] "T2").1 = Except.ok c2T2Report ∧
    (checkBalances c2Env c2State).1.error = "Error: supply unavailable" ∧
    (checkBalances c2Env c2State).1.tokenResults = [] := by
  refine ⟨?_, ?_, ?_⟩ <;>
    norm_num +decide [checkBalances, processTokens, processToken,
      getTotalSupply, getTokenBalance, sumBalances, getTokenInfo, splitClean,
      splitLines, splitCharsOnNl, jsTrim, jsSetDedup, jsSetDedupAux,
      removeDuplicates, joinNl, isValidPublicKey, c2Env, c2State, c2T2Report]

/-- C2 (amended) witness: at the same concrete input, the amended claim —
a supply fetch failure fails the whole run and retains the previous
outputs — instantiates. -/
theorem checkBalances_supply_failure_fatal_witness :
    (checkBalances c2Env c2State).1.error ≠ "" ∧
    (checkBalances c2Env c2State).1.tokenResults = c2State.tokenResults ∧
    (checkBalances c2Env c2State).1.individualBalances =
      c2State.individualBalances :=
  checkBalances_supply_failure_fatal c2Env c2State
    (checkBalances c2Env c2State).1 (checkBalances c2Env c2State).2
    "T1" "supply unavailable" rfl (by decide) (by decide) (by decide)
    (by decide) (by decide) (by decide) rfl

def c3Env : Env where
  validKey a := a == "W1"
  keyErrMsg := pkErr
  getTokenSupplyRPC _ := Except.ok 1000
  getTokenAccountsByOwnerRPC _ _ := Except.ok []
  getTokenAccountBalanceRPC _ := Except.ok 0
  tokenMetaFetch _ := Except.error "offline"
  priceFetch _ := Except.error "offline"

def c3Prev : TokenResults where
  address := "OLD"
  info := none
  totalSupply := 5
  balances := []
  totalBalance := 0
  percentageOfSupply := 0

def c3State : AppState where
  walletAddresses := "W1"
  connectionUrl := "https://rpc"
  tokenAddresses := "BAD"
  loading := false
  error := ""
  individualBalances := [⟨"OLDW", 1, 2, none⟩]
  duplicatesRemoved := 0
  tokenResults := [c3Prev]

/-- C3 witness: the malformed token address "BAD" fails the run before any
network call, with an error naming "BAD", and the previous outputs are
kept. -/
theorem checkBalances_validation_gate_witness :
    (checkBalances c3Env c3State).2 = [] ∧
    (checkBalances c3Env c3State).1.error =
      "Error: Invalid token address format: BAD" ∧
    (checkBalances c3Env c3State).1.tokenResults = [c3Prev] ∧
    (checkBalances c3Env c3State).1.individualBalances =
      [⟨"OLDW", 1, 2, none⟩] := by
  have main := (checkBalances_validation_gate c3Env c3State
    (checkBalances c3Env c3State).1 (checkBalances c3Env c3State).2
    rfl).2.1 "BAD" (by decide) (by decide) (by decide) (by decide)
  exact ⟨main.2.2.2.1, main.2.2.1.trans (by decide),
    main.2.2.2.2.1.trans rfl, main.2.2.2.2.2.trans rfl⟩

def c4Env : Env where
  validKey a := a == "W1" || a == "W2" || a == "W3" || a == "T1"
  keyErrMsg := pkErr
  getTokenSupplyRPC _ := Except.ok 1000
  getTokenAccountsByOwnerRPC w _ :=
    if w == "W1" then Except.error "RPC timeout"
    else if w == "W3" then Except.ok ["A3"]
    else Except.ok ["A2"]
  getTokenAccountBalanceRPC a :=
    if a == "A3" then Except.error "balance node down" else Except.ok 100
  tokenMetaFetch _ := Except.error "offline"
  priceFetch _ := Except.error "offline"

def c4Env2 : Env :=
  { c4Env with
    getTokenAccountsByOwnerRPC := fun w t =>
      if w == "W1" then Except.ok ["A9"]
      else c4Env.getTokenAccountsByOwnerRPC w t
    getTokenAccountBalanceRPC := fun a =>
      if a == "A3" then Except.ok 77
      else c4Env.getTokenAccountBalanceRPC a }

def c4Report : TokenResults where
  address := "T1"
  info := none
  totalSupply := 1000
  balances := [⟨"W1", 0, 0, some "RPC timeout"⟩, ⟨"W2", 100, 10, none⟩,
    ⟨"W3", 0, 0, some "balance node down"⟩]
  totalBalance := 100
  percentageOfSupply := 10

/-- C4 witness: wallet W1's accounts lookup is rejected with "RPC timeout"
and wallet W3's account-balance call is rejected with "balance node down";
each record carries its own error with a zeroed balance, replacing both
failing oracle entries leaves W2's record untouched, and the token report
is still produced with all three wallets' records. -/
theorem getTokenBalance_failure_isolated_witness :
    (getTokenBalance c4Env "W1" 1000 "T1").1 =
      { address := "W1", balance := 0, percentage := 0
        error := some "RPC timeout" } ∧
    (getTokenBalance c4Env "W3" 1000 "T1").1 =
      { address := "W3", balance := 0, percentage := 0
        error := some "balance node down" } ∧
    getTokenBalance c4Env2 "W2" 1000 "T1" =
      getTokenBalance c4Env "W2" 1000 "T1" ∧
    (processToken c4Env ["W1", "W2", "W3"] "T1").1 = Except.ok c4Report := by
  have main1 := getTokenBalance_failure_isolated c4Env 1000 "T1" "W1"
    "RPC timeout" (by decide) (by decide) (Or.inl rfl)
  have main3 := getTokenBalance_failure_isolated c4Env 1000 "T1" "W3"
    "balance node down" (by decide) (by decide)
    (Or.inr ⟨["A3"], rfl, by decide, rfl⟩)
  refine ⟨main1.1, main3.1,
    main1.2.1 c4Env2 "W2" (by decide) rfl rfl rfl ?_, ?_⟩
  · intro accts hacc2 acct hmem
    injection hacc2 with h
    subst h
    fin_cases hmem
    rfl
  · norm_num +decide [processToken, getTotalSupply, getTokenBalance,
      sumBalances, getTokenInfo, c4Env, c4Report]

def c5Env : Env where
  validKey a := a == "W0" || a == "W1" || a == "T1"
  keyErrMsg := pkErr
  getTokenSupplyRPC _ := Except.ok 1000
  getTokenAccountsByOwnerRPC w _ :=
    if w == "W1" then Except.ok ["A1", "A2"] else Except.ok []
  getTokenAccountBalanceRPC a := Except.ok (if a == "A1" then 60 else 40)
  tokenMetaFetch _ := Except.error "offline"
  priceFetch _ := Except.error "offline"

def c5f : String → ℚ := fun a => if a == "A1" then 60 else 40

/-- C5 witness: wallet W1 has two token accounts holding 60 and 40, so its
record is balance 100 with percentage 10 of the 1000 supply and no error;
wallet W0 has no matching accounts and gets balance 0, percentage 0, no
error. -/
theorem getTokenBalance_sums_accounts_witness :
    (getTokenBalance c5Env "W1" 1000 "T1").1 =
      { address := "W1", balance := 100, percentage := 10, error := none } ∧
    (getTokenBalance c5Env "W0" 1000 "T1").1 =
      { address := "W0", balance := 0, percentage := 0, error := none } := by
  have main1 := getTokenBalance_sums_accounts c5Env "W1" "T1" 1000
    ["A1", "A2"] c5f (by decide) (by decide) rfl
    (by intro a ha; fin_cases ha <;> rfl)
  have main2 := getTokenBalance_sums_accounts c5Env "W0" "T1" 1000
    [] c5f (by decide) (by decide) rfl (by intro a ha; simp at ha)
  refine ⟨main1.1.trans ?_, main2.2 rfl⟩
  norm_num +decide [c5f]

def c6Env : Env where
  validKey a := a == "W1" || a == "T1"
  keyErrMsg := pkErr
  getTokenSupplyRPC _ := Except.ok 1000
  getTokenAccountsByOwnerRPC _ _ := Except.ok ["A1"]
  getTokenAccountBalanceRPC _ := Except.ok 100
  tokenMetaFetch _ := Except.error "offline"
  priceFetch _ := Except.ok ⟨true, Except.ok ⟨fun _ => some ⟨some 2⟩⟩⟩

def c6Env2 : Env :=
  { c6Env with
    tokenMetaFetch := fun _ =>
      Except.ok ⟨true, Except.ok ⟨some "SYM", some "Token", some 6⟩⟩ }

def c6Report : TokenResults where
  address := "T1"
  info := none
  totalSupply := 1000
  balances := [⟨"W1", 100, 10, none⟩]
  totalBalance := 100
  percentageOfSupply := 10

/-- C6 witness: the metadata fetch is rejected, so the enrichment info is
`none`; the token's report still succeeds with the full supply/balance
computation, and equals (up to the nulled `info`) the report produced when
the metadata fetch succeeds. -/
theorem enrichment_failure_isolated_witness :
    (getTokenInfo c6Env "T1").1 = none ∧
    processToken c6Env ["W1"] "T1" =
      (((processToken c6Env2 ["W1"] "T1").1).map
        (fun r => { r with info := none }),
       (processToken c6Env2 ["W1"] "T1").2) ∧
    (processToken c6Env ["W1"] "T1").1 = Except.ok c6Report := by
  have main := enrichment_failure_isolated c6Env "T1"
    (Or.inl ⟨"offline", rfl⟩)
  refine ⟨main.1, main.2 c6Env2 ["W1"] rfl rfl rfl rfl rfl, ?_⟩
  norm_num +decide [processToken, getTotalSupply, getTokenBalance,
    sumBalances, getTokenInfo, c6Env, c6Report]

def c7Env : Env where
  validKey a := a == "W1" || a == "W2" || a == "T1"
  keyErrMsg := pkErr
  getTokenSupplyRPC _ := Except.ok 1000
  getTokenAccountsByOwnerRPC w _ :=
    if w == "W1" then Except.ok ["A1"] else Except.ok []
  getTokenAccountBalanceRPC _ := Except.ok 100
  tokenMetaFetch _ := Except.error "offline"
  priceFetch _ := Except.error "offline"

def c7State : AppState where
  walletAddresses := "W1\nW1\nW2"
  connectionUrl := "https://rpc"
  tokenAddresses := "T1"
  loading := false
  error := ""
  individualBalances := []
  duplicatesRemoved := 0
  tokenResults := []

/-- C7 witness: the spec example — ["W1","W1","W2"] deduplicates to
["W1","W2"] with one duplicate removed — and in a run that reaches the
network, `duplicatesRemoved` was set from the wallet list and the account
lookups use deduplicated addresses. -/
theorem removeDuplicates_spec_and_before_fetch_witness :
    removeDuplicates ["W1", "W1", "W2"] = (["W1", "W2"], 1) ∧
    (checkBalances c7Env c7State).1.duplicatesRemoved = 1 ∧
    "W1" ∈ jsSetDedup (splitClean c7State.walletAddresses) := by
  have main := removeDuplicates_spec_and_before_fetch ["W1", "W1", "W2"]
    c7Env c7State (checkBalances c7Env c7State).1
    (checkBalances c7Env c7State).2 rfl
  have hlog : (checkBalances c7Env c7State).2 ≠ [] := by decide
  have h2 := main.2 hlog
  exact ⟨by decide, h2.1.trans (by decide), h2.2 "W1" "T1" (by decide)⟩

def c9Env : Env where
  validKey a := a == "W1" || a == "T1"
  keyErrMsg := pkErr
  getTokenSupplyRPC _ := Except.error "supply unavailable"
  getTokenAccountsByOwnerRPC _ _ := Except.ok []
  getTokenAccountBalanceRPC _ := Except.ok 0
  tokenMetaFetch _ := Except.error "offline"
  priceFetch _ := Except.error "offline"

def c9Prev : TokenResults where
  address := "OLD"
  info := none
  totalSupply := 5
  balances := []
  totalBalance := 0
  percentageOfSupply := 0

def c9State : AppState where
  walletAddresses := "W1"
  connectionUrl := "https://rpc"
  tokenAddresses := "T1"
  loading := false
  error := ""
  individualBalances := [⟨"OLDW", 1, 2, none⟩]
  duplicatesRemoved := 0
  tokenResults := [c9Prev]

/-- C9 witness: a run that fails on a fatal supply fetch ends with
`loading = false` and keeps the previous `tokenResults` and
`individualBalances`. -/
theorem checkBalances_failed_run_frame_witness :
    c9State.loading = false ∧
    (checkBalances c9Env c9State).1.error ≠ "" ∧
    (checkBalances c9Env c9State).1.loading = false ∧
    (checkBalances c9Env c9State).1.tokenResults = [c9Prev] ∧
    (checkBalances c9Env c9State).1.individualBalances =
      [⟨"OLDW", 1, 2, none⟩] := by
  have main := checkBalances_failed_run_frame c9Env c9State
    (checkBalances c9Env c9State).1 (checkBalances c9Env c9State).2 rfl rfl
  have herr : (checkBalances c9Env c9State).1.error ≠ "" := by decide
  exact ⟨rfl, herr, main.1, (main.2.1 herr).1.trans rfl,
    (main.2.1 herr).2.trans rfl⟩

def c10Env : Env where
  validKey a := a == "W1" || a == "T1"
  keyErrMsg := pkErr
  getTokenSupplyRPC _ := Except.ok 1000
  getTokenAccountsByOwnerRPC _ _ := Except.ok []
  getTokenAccountBalanceRPC _ := Except.ok 0
  tokenMetaFetch _ := Except.error "offline"
  priceFetch _ := Except.error "offline"

def c10State : AppState where
  walletAddresses := "W1\nW1\nBAD"
  connectionUrl := "https://rpc"
  tokenAddresses := "T1"
  loading := false
  error := ""
  individualBalances := []
  duplicatesRemoved := 0
  tokenResults := []

/-- C10 witness: with the duplicated wallet list ["W1","W1","BAD"] whose
deduplicated form still contains the invalid "BAD", the run fails on wallet
validation, yet `duplicatesRemoved = 1` persists and the wallet field has
been rewritten to the deduplicated "W1\nBAD". -/
theorem checkBalances_dedup_persists_on_failure_witness :
    (checkBalances c10Env c10State).1.error =
      "Error: Invalid wallet address format: BAD" ∧
    (checkBalances c10Env c10State).1.duplicatesRemoved = 1 ∧
    0 < (checkBalances c10Env c10State).1.duplicatesRemoved ∧
    (checkBalances c10Env c10State).1.walletAddresses = "W1\nBAD" := by
  have main := checkBalances_dedup_persists_on_failure c10Env c10State
    (checkBalances c10Env c10State).1 (checkBalances c10Env c10State).2
    "BAD" rfl (by decide) (by decide) (by decide) (by decide) (by decide)
    (by decide)
  exact ⟨main.1.trans (by decide), main.2.1.trans (by decide),
    main.2.2.1, main.2.2.2.trans (by decide)⟩

end SplChecker
